import Mathlib

/-!
Verification development for the PGS Catalog score/trait loading pipeline
(`src/js/loadScores.mjs`, `src/js/loadTraits.js`, `src/js/loadStats.js`,
`src/js/loadPgs.js`).

The development is a shallow embedding of the pipeline's core:
the paginated fetcher `fetchAllScores`, the aggregators `computeSummary`
(scores, in `loadScores.mjs`) and `computeSummary` (traits, in
`loadTraits.js`, here named `computeTraitSummary` to avoid a name clash),
the cache-freshness predicate `isCacheWithinMonths`, and the orchestrator
`loadScores`.

Modelling conventions:
* JS numbers that feed the `variants_number` distribution are modelled as
  rationals; the value of `Number(score.variants_number)` is abstracted as
  either a finite rational or a non-finite result (`NaN`/`±Infinity`),
  matching the `Number.isFinite` filter in the source.
* A JS `Map` built by repeated `map.set(k, (map.get(k) ?? 0) + 1)` is
  modelled as an association list in first-insertion order (`bump`),
  which is exactly the iteration order of `Map.entries()`.
* `Array.prototype.sort` with a numeric comparator is a stable sort
  (ECMAScript 2019 and later); a stable sort's output is determined
  uniquely by the comparator's total preorder, so it is modelled by the
  stable `List.insertionSort` with the corresponding `≤` relation.
* The remote server is modelled as the list of responses the sequential
  page requests would receive, in request order.  Running off the end of
  that list is reported as the distinguished outcome `FetchErr.exhausted`
  (the real loop would simply issue another request); theorems about
  terminating runs never reach it.
* Timestamps are epoch milliseconds (`Int`); the current instant is a
  civil datetime (year / 0-based month / day-of-month / ms-of-day), which
  is what `Date.prototype.getMonth`/`setMonth` operate on.  `setMonth`
  day-of-month overflow follows the ECMAScript `MakeDay` rule: the civil
  day number is computed from the first of the (normalized) month plus
  `day - 1`, flowing into the next month when `day` exceeds the month
  length.
-/

namespace PgsCatalog

/-- Result of `Number(x)` as consumed by the variants pipeline: either a
finite rational or a non-finite value (`NaN` or `±Infinity`), which
`Number.isFinite` rejects. -/
inductive NumVal where
  | nonfinite
  | finite (q : ℚ)
deriving DecidableEq, Repr

/-- The fields of one score record read by `computeSummary` in
`loadScores.mjs`: `variants_number` (already under `Number(·)`),
`trait_reported` (`none` models `null`/`undefined`, i.e. the `??`
fallback fires), and `date_release` (likewise). -/
structure ScoreRec where
  variants_number : NumVal
  trait_reported : Option String
  date_release : Option String
deriving DecidableEq, Repr

/-- The `trait_categories` field of a trait record as tested by
`Array.isArray(trait?.trait_categories) && trait.trait_categories.length`
in `loadTraits.js`: absent (`null`/`undefined`/missing record), present
but not an array, or an array of category strings. -/
inductive CatField where
  | absent
  | notArray
  | arr (cats : List String)
deriving DecidableEq, Repr

/-- One trait record; only `trait_categories` is read by the aggregator. -/
structure TraitRec where
  trait_categories : CatField
deriving DecidableEq, Repr

/-- One step of the JS frequency count
`map.set(key, (map.get(key) ?? 0) + 1)` on a `Map` modelled as an
association list in first-insertion order. -/
def bump : List (String × Nat) → String → List (String × Nat)
  | [], k => [(k, 1)]
  | (k', c) :: rest, k =>
    if k' = k then (k', c + 1) :: rest else (k', c) :: bump rest k

/-- The `byTrait` map of `computeSummary` (`loadScores.mjs` line 100-102):
each score is counted under `score.trait_reported ?? "NR"`. -/
def scoreTraitTable (scores : List ScoreRec) : List (String × Nat) :=
  scores.foldl (fun m r => bump m (r.trait_reported.getD "NR")) []

/-- Embedding of the regex match `^(\d{4})` (four leading ASCII digits):
returns the captured year string when the input starts with four digits. -/
def leadingYear (s : String) : Option String :=
  let cs := (s.toList.take 4)
  if cs.length = 4 && cs.all Char.isDigit then some (String.mk cs) else none

/-- The `byReleaseYear` map of `computeSummary` (`loadScores.mjs` lines
104-108): a score contributes iff `(score.date_release ?? "")` starts with
a 4-digit year, under that year string. -/
def releaseYearTable (scores : List ScoreRec) : List (String × Nat) :=
  scores.foldl
    (fun m r =>
      match leadingYear (r.date_release.getD "") with
      | some y => bump m y
      | none => m)
    []

/-- Embedding of `quantile(sorted, q)` from `loadScores.mjs` lines 14-21.
`none` models both the explicit `null` for an empty input and the
`undefined` a JS out-of-range read would yield (callers only pass
`q = 0.5`, for which every read is in range on nonempty input). -/
def quantile (sorted : List ℚ) (q : ℚ) : Option ℚ :=
  if sorted.length = 0 then none
  else
    let pos : ℚ := ((sorted.length : ℚ) - 1) * q
    let base : ℕ := (⌊pos⌋).toNat
    let rest : ℚ := pos - (base : ℚ)
    match sorted[base + 1]? with
    | none => sorted[base]?
    | some nxt =>
      match sorted[base]? with
      | none => none
      | some b => some (b + rest * (nxt - b))

/-- The `Number.isFinite` filter step applied to a `Number(·)` result. -/
def finiteVal : NumVal → Option ℚ
  | .nonfinite => none
  | .finite q => some q

/-- The `variants` array of `computeSummary`: map `Number`, keep the
finite values, sort ascending (`(a, b) => a - b`). -/
def variantsOf (scores : List ScoreRec) : List ℚ :=
  List.insertionSort (fun a b : ℚ => a ≤ b)
    ((scores.map ScoreRec.variants_number).filterMap finiteVal)

/-- The `variants` block of the score summary. -/
structure VariantsBlock where
  min : Option ℚ
  max : Option ℚ
  mean : Option ℚ
  median : Option ℚ
deriving DecidableEq, Repr

/-- The object returned by `computeSummary` in `loadScores.mjs`. -/
structure Summary where
  totalScores : Nat
  uniqueTraits : Nat
  variants : VariantsBlock
  topTraits : List (String × Nat)
  releaseYears : List (String × Nat)
deriving DecidableEq, Repr

/-- The sort key `Number(a[0])` used on release-year entries: the keys are
always 4-digit strings produced by `leadingYear`, on which JS `Number` is
the base-10 value of the digits. -/
def yearNum (s : String) : Nat :=
  s.toList.foldl (fun n c => n * 10 + (c.toNat - Char.toNat '0')) 0

/-- Embedding of `computeSummary(scores)` from `loadScores.mjs` lines
91-130.  `topTraits` is the count-descending stable sort of the trait
table truncated by `.slice(0, 10)`; `releaseYears` is sorted ascending by
numeric year. -/
def computeSummary (scores : List ScoreRec) : Summary :=
  { totalScores := scores.length
    uniqueTraits := (scoreTraitTable scores).length
    variants :=
      { min := (variantsOf scores).head?
        max := (variantsOf scores).getLast?
        mean :=
          if (variantsOf scores).length = 0 then none
          else some ((variantsOf scores).sum / ((variantsOf scores).length : ℚ))
        median := quantile (variantsOf scores) (1 / 2) }
    topTraits :=
      (List.insertionSort (fun a b : String × Nat => b.2 ≤ a.2)
        (scoreTraitTable scores)).take 10
    releaseYears :=
      List.insertionSort (fun a b : String × Nat => yearNum a.1 ≤ yearNum b.1)
        (releaseYearTable scores) }

/-- The per-record category list of `computeSummary` in `loadTraits.js`
lines 144-152: the literal list when `trait_categories` is a nonempty
array, `["NR"]` otherwise (absent, non-array, or empty array). -/
def categoriesOf (t : TraitRec) : List String :=
  match t.trait_categories with
  | .arr cats => if cats.length ≠ 0 then cats else ["NR"]
  | _ => ["NR"]

/-- The `byCategory` map of the trait aggregator: each record contributes
once per entry of `categoriesOf`. -/
def traitCategoryTable (traits : List TraitRec) : List (String × Nat) :=
  traits.foldl (fun m t => (categoriesOf t).foldl bump m) []

/-- The object returned by `computeSummary` in `loadTraits.js` lines
154-163 (named `computeTraitSummary` here only to avoid the Lean name
clash with the score aggregator). -/
structure TraitSummary where
  traits : List TraitRec
  totaltraits : Nat
  totalCategories : Nat
  categories : List (String × Nat)
deriving DecidableEq, Repr

/-- Embedding of the trait `computeSummary`: the category table is sorted
descending by count and is NOT truncated (the `.slice(0, 10)` in the
source is commented out). -/
def computeTraitSummary (traits : List TraitRec) : TraitSummary :=
  { traits := traits
    totaltraits := traits.length
    totalCategories := (traitCategoryTable traits).length
    categories :=
      List.insertionSort (fun a b : String × Nat => b.2 ≤ a.2)
        (traitCategoryTable traits) }

/-- The `results` value extracted from a page body that is not a bare
array: absent (`data.results` is `null`/`undefined`, so `?? []` yields
`[]`), present but not an array (the `Unexpected response format` throw),
or an array of records. -/
inductive ResultsField (α : Type) where
  | absent
  | notArray
  | arr (rs : List α)
deriving DecidableEq, Repr

/-- A parsed JSON page body: either a bare array of records, or an
envelope object with a `results` field and a `next` field (`none` models
both an absent `next` and an explicit `null`, exactly the values accepted
by the loose `data.next == null`; `some s` is any other value). -/
inductive RespBody (α : Type) where
  | bare (results : List α)
  | envelope (results : ResultsField α) (next : Option String)
deriving DecidableEq, Repr

/-- One HTTP response as seen by one iteration of the fetch loop. -/
inductive Response (α : Type) where
  | httpError (status : Nat)
  | body (data : RespBody α)
deriving DecidableEq, Repr

/-- The ways a fetch run can fail: the `HTTP {status} on {url}` throw, the
`Unexpected response format from PGS API.` throw, or the modelling
artifact of running past the provided response list (the real loop would
issue a further request; terminating runs never reach it). -/
inductive FetchErr where
  | http (status : Nat) (offset : Nat)
  | format (offset : Nat)
  | exhausted
deriving DecidableEq, Repr

/-- Observable outcome of a terminating fetch run: the accumulated `all`
array, the offsets the loop requested in order, and how many pages it
consumed. -/
structure FetchOk (α : Type) where
  all : List α
  offsets : List Nat
  pages : Nat
deriving DecidableEq, Repr

/-- One iteration of the `while (true)` loop of `fetchAllScores`
(`loadScores.mjs` lines 51-89; `fetchAllTraits` in `loadTraits.js` is the
same loop): request the current offset, throw on a non-ok status or a
non-array `results`, push the page's records, stop on an empty page, stop
on an enveloped short page whose `next` is null/absent (`!Array.isArray
(data) && data.next == null && results.length < pageSize`), and otherwise
advance the offset by the number of records received. -/
def fetchGo (pageSize : Nat) :
    List (Response α) → Nat → List α → List Nat → Nat →
      Except FetchErr (FetchOk α)
  | [], _, _, _, _ => .error .exhausted
  | .httpError s :: _, offset, _, _, _ => .error (.http s offset)
  | .body (.envelope .notArray _) :: _, offset, _, _, _ =>
    .error (.format offset)
  | .body (.envelope .absent _) :: _, offset, acc, offs, pages =>
    .ok ⟨acc, offs ++ [offset], pages + 1⟩
  | .body (.bare results) :: rest, offset, acc, offs, pages =>
    if results.length = 0 then
      .ok ⟨acc ++ results, offs ++ [offset], pages + 1⟩
    else
      fetchGo pageSize rest (offset + results.length) (acc ++ results)
        (offs ++ [offset]) (pages + 1)
  | .body (.envelope (.arr results) next) :: rest, offset, acc, offs, pages =>
    if results.length = 0 then
      .ok ⟨acc ++ results, offs ++ [offset], pages + 1⟩
    else if next = none ∧ results.length < pageSize then
      .ok ⟨acc ++ results, offs ++ [offset], pages + 1⟩
    else
      fetchGo pageSize rest (offset + results.length) (acc ++ results)
        (offs ++ [offset]) (pages + 1)

/-- Embedding of `fetchAllScores({ pageSize })`: run the loop from offset
0 with empty accumulator against the given response sequence. -/
def fetchAllScores (pageSize : Nat) (responses : List (Response α)) :
    Except FetchErr (FetchOk α) :=
  fetchGo pageSize responses 0 [] [] 0

/-- The offsets a run starting at `start` requests when each page returns
the given record lists: each page advances the offset by its length. -/
def pageOffsets (start : Nat) : List (List α) → List Nat
  | [] => []
  | p :: ps => start :: pageOffsets (start + p.length) ps

/-- A civil datetime as manipulated by `Date.prototype.getMonth` /
`setMonth`: year, 0-based month (0-11), 1-based day of month, and
milliseconds since local midnight. -/
structure CivilTime where
  year : Int
  month : Nat
  day : Nat
  msOfDay : Nat
deriving DecidableEq, Repr

/-- Day number relative to the Unix epoch of the civil date `(y, m, d)`
with `m` 1-based, by the standard civil-from-days inverse (Hinnant's
`days_from_civil`).  `d` may exceed the month length: the result is the
day number of the first of the month plus `d - 1`, exactly the
ECMAScript `MakeDay` overflow rule. -/
def daysFromCivil (y m d : Int) : Int :=
  let y2 := if m ≤ 2 then y - 1 else y
  let era := y2 / 400
  let yoe := y2 - era * 400
  let mp := (m + 9) % 12
  let doy := (153 * mp + 2) / 5 + d - 1
  let doe := yoe * 365 + yoe / 4 - yoe / 100 + doy
  era * 146097 + doe - 719468

/-- Epoch milliseconds of a civil instant. -/
def epochMs (t : CivilTime) : Int :=
  daysFromCivil t.year (t.month + 1) t.day * 86400000 + t.msOfDay

/-- Embedding of the cutoff computation in `isCacheWithinMonths`
(`loadScores.mjs` lines 43-44): `cutoff = new Date();
cutoff.setMonth(cutoff.getMonth() - months)`.  `setMonth` normalizes the
possibly negative month index into year + month-in-[0,11] (ECMAScript
`MakeDay`), keeping the day of month and the time of day. -/
def cutoffMs (now : CivilTime) (months : Int) : Int :=
  let M : Int := (now.month : Int) - months
  daysFromCivil (now.year + M / 12) (M % 12 + 1) now.day * 86400000 +
    now.msOfDay

/-- The `savedAt` input of `isCacheWithinMonths` as the source observes
it: falsy (`!savedAt`), a value on which `new Date(savedAt)` is invalid
(`Number.isNaN(savedDate.getTime())`), or one parsing to a timestamp. -/
inductive SavedAt where
  | absent
  | unparseable
  | parsed (ms : Int)
deriving DecidableEq, Repr

/-- Embedding of `isCacheWithinMonths(savedAt, months)` from
`loadScores.mjs` lines 38-46: false on falsy or unparseable input,
otherwise `savedDate >= cutoff`. -/
def isCacheWithinMonths (savedAt : SavedAt) (months : Int)
    (now : CivilTime) : Bool :=
  match savedAt with
  | .absent => false
  | .unparseable => false
  | .parsed ms => decide (cutoffMs now months ≤ ms)

/-- Stated from the spec's words, as the refinement target for the
freshness claim: the instant `months` calendar months before `now`,
obtained by subtracting `months` from the current month/year (normalizing
the total month count into a year and a month in [0,11]) while keeping
the day of month (overflowing near month ends) and the time of day. -/
def calendarMonthsBefore (now : CivilTime) (months : Int) : Int :=
  let total : Int := now.year * 12 + (now.month : Int) - months
  daysFromCivil (total / 12) (total % 12 + 1) now.day * 86400000 +
    now.msOfDay

/-- The cache entry written by `saveScoreSummary` and read by
`getStoredScoreSummary` under the `pgs:score-summary` key.  A stored
value of unknown provenance may lack `summary` or `scores`, hence the
options. -/
structure CacheEntry where
  savedAt : SavedAt
  summary : Option Summary
  scores : Option (List ScoreRec)
deriving DecidableEq, Repr

/-- The object `loadScores` resolves with: `{ scores, summary }`. -/
structure LoadResult where
  scores : List ScoreRec
  summary : Option Summary
deriving DecidableEq, Repr

/-- Embedding of `saveScoreSummary(results)` (`loadScores.mjs` lines
23-30): overwrite the cache entry with the current instant as `savedAt`
(the stored ISO string re-parses to `epochMs now`) plus the result's
summary and scores. -/
def saveScoreSummary (now : CivilTime) (results : LoadResult) : CacheEntry :=
  ⟨.parsed (epochMs now), results.summary, some results.scores⟩

/-- Truthiness of `cached?.summary`: the stored entry exists and its
`summary` field is present (a summary object is always truthy). -/
def hasCachedSummary : Option CacheEntry → Bool
  | some c => c.summary.isSome
  | none => false

/-- Embedding of the orchestrator `loadScores()` (`loadScores.mjs` lines
180-218) as a function of the stored cache entry, the current instant,
and the response sequence the paginated fetch would receive.  Returns the
resolved `LoadResult` together with the cache entry stored after the
call.  The source's `try`/`catch` never rethrows, so the embedding is a
total function: a fresh cached summary is returned as-is (`cached.scores
?? []`), otherwise the fetch runs; on success the summary is computed and
persisted via `saveScoreSummary`; on any fetch error the cached summary
(of any age) is returned when present, else the empty result, and the
store is left untouched. -/
def loadScores (store : Option CacheEntry) (now : CivilTime)
    (responses : List (Response ScoreRec)) : LoadResult × Option CacheEntry :=
  match store with
  | some c =>
    if c.summary.isSome && isCacheWithinMonths c.savedAt 3 now then
      (⟨c.scores.getD [], c.summary⟩, some c)
    else
      match fetchAllScores 200 responses with
      | .ok res =>
        let results : LoadResult := ⟨res.all, some (computeSummary res.all)⟩
        (results, some (saveScoreSummary now results))
      | .error _ =>
        if c.summary.isSome then (⟨c.scores.getD [], c.summary⟩, some c)
        else (⟨[], none⟩, some c)
  | none =>
    match fetchAllScores 200 responses with
    | .ok res =>
      let results : LoadResult := ⟨res.all, some (computeSummary res.all)⟩
      (results, some (saveScoreSummary now results))
    | .error _ => (⟨[], none⟩, none)

/-! ## Helper lemmas -/

/-- A non-empty enveloped page that does not satisfy the short-final-page
test makes the loop advance to the next request. -/
lemma fetchGo_cons_envelope_continue {α : Type} {pageSize : Nat}
    {results : List α} {next : Option String} {rest : List (Response α)}
    {offset : Nat} {acc : List α} {offs : List Nat} {pages : Nat}
    (h1 : results.length ≠ 0)
    (h2 : ¬(next = none ∧ results.length < pageSize)) :
    fetchGo pageSize (Response.body (.envelope (.arr results) next) :: rest)
        offset acc offs pages =
      fetchGo pageSize rest (offset + results.length) (acc ++ results)
        (offs ++ [offset]) (pages + 1) := by
  simp [fetchGo, h1, h2]

/-- A non-empty bare-array page always makes the loop advance to the next
request: the short-page stop is guarded by `!Array.isArray(data)`. -/
lemma fetchGo_cons_bare_continue {α : Type} {pageSize : Nat}
    {results : List α} {rest : List (Response α)} {offset : Nat}
    {acc : List α} {offs : List Nat} {pages : Nat}
    (h1 : results.length ≠ 0) :
    fetchGo pageSize (Response.body (.bare results) :: rest)
        offset acc offs pages =
      fetchGo pageSize rest (offset + results.length) (acc ++ results)
        (offs ++ [offset]) (pages + 1) := by
  simp [fetchGo, h1]

/-- Running the fetch loop against enveloped pages: any number of
non-empty middle pages with a non-null `next`, then a final short page
with a null `next`.  The loop consumes every page, requests offsets
advanced by each page's record count, and accumulates the concatenation. -/
lemma fetchGo_envelope_run {α : Type} (pageSize : Nat)
    (mids : List (List α × String)) (last : List α) (offset : Nat)
    (acc : List α) (offs : List Nat) (pages : Nat)
    (hmid : ∀ p ∈ mids, p.1 ≠ []) (hshort : last.length < pageSize) :
    fetchGo pageSize
        ((mids.map fun p => Response.body (.envelope (.arr p.1) (some p.2))) ++
          [Response.body (.envelope (.arr last) none)])
        offset acc offs pages =
      .ok ⟨acc ++ ((mids.map Prod.fst).flatten ++ last),
           offs ++ pageOffsets offset (mids.map Prod.fst ++ [last]),
           pages + (mids.length + 1)⟩ := by
  induction mids generalizing offset acc offs pages with
  | nil =>
    by_cases h0 : last.length = 0
    · simp [fetchGo, h0, pageOffsets]
    · simp [fetchGo, h0, hshort, pageOffsets]
  | cons p mids ih =>
    have h1 : p.1.length ≠ 0 := fun h => hmid p (by simp) (List.eq_nil_of_length_eq_zero h)
    have ih' := ih (offset + p.1.length) (acc ++ p.1) (offs ++ [offset])
      (pages + 1) (fun x hx => hmid x (List.mem_cons_of_mem p hx))
    rw [List.map_cons, List.cons_append,
      fetchGo_cons_envelope_continue h1 (by simp), ih']
    simp [pageOffsets, List.append_assoc]
    omega

/-- Running the fetch loop against bare-array pages: non-empty pages
never trigger a stop (the enveloped short-page stop requires
`!Array.isArray(data)`), so the loop runs until the terminating empty
page, whatever the page lengths. -/
lemma fetchGo_bare_run {α : Type} (pageSize : Nat) (mids : List (List α))
    (offset : Nat) (acc : List α) (offs : List Nat) (pages : Nat)
    (hmid : ∀ p ∈ mids, p ≠ []) :
    fetchGo pageSize
        ((mids.map fun p => Response.body (.bare p)) ++
          [Response.body (.bare [])])
        offset acc offs pages =
      .ok ⟨acc ++ mids.flatten, offs ++ pageOffsets offset (mids ++ [[]]),
           pages + (mids.length + 1)⟩ := by
  induction mids generalizing offset acc offs pages with
  | nil => simp [fetchGo, pageOffsets]
  | cons p mids ih =>
    have h1 : p.length ≠ 0 := fun h => hmid p (by simp) (List.eq_nil_of_length_eq_zero h)
    have ih' := ih (offset + p.length) (acc ++ p) (offs ++ [offset])
      (pages + 1) (fun x hx => hmid x (List.mem_cons_of_mem p hx))
    rw [List.map_cons, List.cons_append, fetchGo_cons_bare_continue h1, ih']
    simp [pageOffsets, List.append_assoc]
    omega

/-- The count-descending relation used on frequency tables is total. -/
lemma descByCount_total :
    IsTotal (String × Nat) (fun a b : String × Nat => b.2 ≤ a.2) :=
  ⟨fun a b => Nat.le_total b.2 a.2⟩

/-- The count-descending relation used on frequency tables is transitive. -/
lemma descByCount_trans :
    IsTrans (String × Nat) (fun a b : String × Nat => b.2 ≤ a.2) :=
  ⟨fun _ _ _ hab hbc => Nat.le_trans hbc hab⟩

/-- A stable sort by descending count is pairwise count-descending. -/
lemma pairwise_desc_sort (l : List (String × Nat)) :
    List.Pairwise (fun a b : String × Nat => b.2 ≤ a.2)
      (List.insertionSort (fun a b : String × Nat => b.2 ≤ a.2) l) := by
  haveI := descByCount_total
  haveI := descByCount_trans
  exact List.sorted_insertionSort _ l

/-- A stable sort by ascending numeric year is pairwise year-ascending. -/
lemma pairwise_year_sort (l : List (String × Nat)) :
    List.Pairwise (fun a b : String × Nat => yearNum a.1 ≤ yearNum b.1)
      (List.insertionSort
        (fun a b : String × Nat => yearNum a.1 ≤ yearNum b.1) l) := by
  haveI : IsTotal (String × Nat)
      (fun a b : String × Nat => yearNum a.1 ≤ yearNum b.1) :=
    ⟨fun a b => Nat.le_total _ _⟩
  haveI : IsTrans (String × Nat)
      (fun a b : String × Nat => yearNum a.1 ≤ yearNum b.1) :=
    ⟨fun _ _ _ hab hbc => Nat.le_trans hab hbc⟩
  exact List.sorted_insertionSort _ l

/-! ## Claims -/

/-- C2 (amended): for every enveloped pagination sequence whose non-final
pages are non-empty and carry a non-null `next` pointer, and whose final
page holds strictly fewer records than `pageSize` with a null `next`,
`fetchAllScores` terminates after that final page (consuming exactly all
the pages) and returns the concatenation of the pages' `results` arrays
in request order, requesting offsets advanced by each page's record
count.  (The claim as stated omits the non-emptiness of the
non-final pages; see the counterexample.) -/
theorem fetchAllScores_envelope_pagination {α : Type} (pageSize : Nat)
    (mids : List (List α × String)) (last : List α)
    (hmid : ∀ p ∈ mids, p.1 ≠ []) (hshort : last.length < pageSize) :
    fetchAllScores pageSize
        ((mids.map fun p => Response.body (.envelope (.arr p.1) (some p.2))) ++
          [Response.body (.envelope (.arr last) none)]) =
      .ok ⟨(mids.map Prod.fst).flatten ++ last,
           pageOffsets 0 (mids.map Prod.fst ++ [last]),
           mids.length + 1⟩ := by
  have h := fetchGo_envelope_run pageSize mids last 0 [] [] 0 hmid hshort
  simpa [fetchAllScores] using h

/-- Witness for C2's amended theorem: two envelope pages `[5, 6]` (with a
next pointer) and `[7]` (short, null next) at `pageSize = 2` yield the
concatenation `[5, 6, 7]`, offsets `[0, 2]`, both pages consumed. -/
theorem fetchAllScores_envelope_pagination_instance :
    fetchAllScores (α := Nat) 2
        [.body (.envelope (.arr [5, 6]) (some "n")),
         .body (.envelope (.arr [7]) none)] =
      .ok ⟨[5, 6, 7], [0, 2], 2⟩ := by
  have h := fetchAllScores_envelope_pagination (α := Nat) 2 [([5, 6], "n")]
    [7] (by decide) (by decide)
  simpa [pageOffsets] using h

/-- C2 counterexample: the claim as stated quantifies over all envelope
sequences whose non-final pages have a non-null `next` and whose final
page is short with a null `next`.  With `pageSize = 2`, page 1 an empty
envelope with `next = "n"` and page 2 the short final envelope `[7]`,
the claim predicts the concatenation `[7]` after two pages at offsets
`[0, 0]`; the code stops at the empty first page (`results.length === 0`
breaks before the `next` check) and returns `[]` after one page. -/
theorem fetchAllScores_empty_midpage_counterexample :
    fetchAllScores (α := Nat) 2
        [.body (.envelope (.arr []) (some "n")),
         .body (.envelope (.arr [7]) none)] =
      .ok ⟨[], [0], 1⟩ ∧
    (⟨[], [0], 1⟩ : FetchOk Nat) ≠ ⟨[7], [0, 0], 2⟩ :=
  ⟨rfl, by decide⟩

/-- C3 (amended): a bare-array page is NOT handled uniformly with the
enveloped case: the short-page stop condition is guarded by
`!Array.isArray(data)`, so a short non-empty bare page does not stop the
fetch; on bare-array sequences the loop stops only at an empty page.
For every sequence of non-empty bare pages (short or not) followed by an
empty bare page, the fetcher consumes every page including the empty
terminator and returns the concatenation. -/
theorem fetchAllScores_bare_pages {α : Type} (pageSize : Nat)
    (mids : List (List α)) (hmid : ∀ p ∈ mids, p ≠ []) :
    fetchAllScores pageSize
        ((mids.map fun p => Response.body (.bare p)) ++
          [Response.body (.bare [])]) =
      .ok ⟨mids.flatten, pageOffsets 0 (mids ++ [[]]), mids.length + 1⟩ := by
  have h := fetchGo_bare_run pageSize mids 0 [] [] 0 hmid
  simpa [fetchAllScores] using h

/-- Witness for C3's amended theorem: a single bare page `[7]` (short:
1 < 200) followed by an empty bare page; the fetcher consumes both
pages, so the short bare page did not stop it. -/
theorem fetchAllScores_bare_pages_instance :
    fetchAllScores (α := Nat) 200
        [.body (.bare [7]), .body (.bare [])] =
      .ok ⟨[7], [0, 1], 2⟩ := by
  have h := fetchAllScores_bare_pages (α := Nat) 200 [[7]] (by decide)
  simpa [pageOffsets] using h

/-- C3 counterexample: a bare page `[7]` with `pageSize = 200` is a bare
short non-empty page; the claim predicts the fetcher stops after it
without requesting a further page.  The code requests a further page:
given only that one response it runs off the provided sequence
(`FetchErr.exhausted`) instead of returning `.ok` with one page
consumed. -/
theorem fetchAllScores_bare_short_counterexample :
    fetchAllScores (α := Nat) 200 [.body (.bare [7])] =
      .error .exhausted ∧
    ∀ o : FetchOk Nat,
      Except.error (ε := FetchErr) .exhausted ≠ .ok o :=
  ⟨rfl, fun _ h => Except.noConfusion h⟩

section

attribute [local semireducible] Rat.inv Rat.mul Rat.add Rat.sub

/-- C4 (amended): the score aggregator truncates the reported-trait
frequency table to its 10 most frequent entries inside `computeSummary`
itself (`.slice(0, 10)` on `topTraits`), so its `Summary` exposes at most
10 trait entries, not the full table; the trait aggregator, by contrast,
exposes its full, untruncated category table (one entry per distinct
category). -/
theorem aggregator_truncation (scores : List ScoreRec)
    (traits : List TraitRec) :
    (computeSummary scores).topTraits.length =
      min 10 (computeSummary scores).uniqueTraits ∧
    (computeTraitSummary traits).categories.length =
      (computeTraitSummary traits).totalCategories := by
  constructor
  · simp [computeSummary, List.length_take,
      (List.perm_insertionSort _ _).length_eq]
  · simp [computeTraitSummary, (List.perm_insertionSort _ _).length_eq]

/-- C4 counterexample: eleven records with eleven distinct
`trait_reported` values; the claim says the aggregator's table has one
entry per distinct key (11), but `computeSummary` returns only the top
10 — the truncation happens inside the aggregator, not at the rendering
boundary. -/
theorem computeSummary_truncates_trait_table :
    (computeSummary (["a", "b", "c", "d", "e", "f", "g", "h", "i", "j",
        "k"].map fun s => ⟨.nonfinite, some s, none⟩)).uniqueTraits = 11 ∧
    (computeSummary (["a", "b", "c", "d", "e", "f", "g", "h", "i", "j",
        "k"].map fun s => ⟨.nonfinite, some s, none⟩)).topTraits.length =
      10 := by
  exact ⟨by decide, by decide⟩

/-- C5 (amended): the reported-trait table and the trait-category table
are sorted descending by count, but the release-year table is sorted
ascending by numeric year (`Number(a[0]) - Number(b[0])`), not by
count. -/
theorem summary_tables_sort_orders (scores : List ScoreRec)
    (traits : List TraitRec) :
    List.Pairwise (fun a b : String × Nat => b.2 ≤ a.2)
      (computeSummary scores).topTraits ∧
    List.Pairwise (fun a b : String × Nat => b.2 ≤ a.2)
      (computeTraitSummary traits).categories ∧
    List.Pairwise (fun a b : String × Nat => yearNum a.1 ≤ yearNum b.1)
      (computeSummary scores).releaseYears := by
  refine ⟨?_, ?_, ?_⟩
  · exact List.Pairwise.sublist (List.take_sublist 10 _)
      (pairwise_desc_sort (scoreTraitTable scores))
  · exact pairwise_desc_sort (traitCategoryTable traits)
  · exact pairwise_year_sort (releaseYearTable scores)

/-- C5 counterexample: one 2020 release and two 2021 releases.  The
release-year table comes out year-ascending as `[("2020", 1),
("2021", 2)]`, which is not sorted descending by count. -/
theorem releaseYears_count_order_counterexample :
    (computeSummary [⟨.nonfinite, none, some "2020-01-01"⟩,
        ⟨.nonfinite, none, some "2021-01-01"⟩,
        ⟨.nonfinite, none, some "2021-02-02"⟩]).releaseYears =
      [("2020", 1), ("2021", 2)] ∧
    ¬ List.Pairwise (fun a b : String × Nat => b.2 ≤ a.2)
        [(("2020" : String), 1), ("2021", 2)] := by
  exact ⟨by decide, by decide⟩

/-- C6: `isCacheWithinMonths` is false on absent or unparseable input,
and on a parsed timestamp it is true exactly when the timestamp is at or
after the instant `months` calendar months before now (the spec-side
`calendarMonthsBefore`, inclusive boundary).  Concretely, with
`now` = 2025-06-15T12:00 local, the 3-calendar-month cutoff is
2025-03-15T12:00 (92 days, not a 90-day approximation): a `savedAt`
exactly 3 calendar months old is fresh, one 3 calendar months and one
day old is not. -/
theorem isCacheWithinMonths_calendar_boundary :
    (∀ (months : Int) (now : CivilTime),
      isCacheWithinMonths .absent months now = false) ∧
    (∀ (months : Int) (now : CivilTime),
      isCacheWithinMonths .unparseable months now = false) ∧
    (∀ (months : Int) (now : CivilTime) (ms : Int),
      isCacheWithinMonths (.parsed ms) months now =
        decide (calendarMonthsBefore now months ≤ ms)) ∧
    calendarMonthsBefore ⟨2025, 5, 15, 43200000⟩ 3 =
      epochMs ⟨2025, 2, 15, 43200000⟩ ∧
    isCacheWithinMonths
        (.parsed (calendarMonthsBefore ⟨2025, 5, 15, 43200000⟩ 3)) 3
        ⟨2025, 5, 15, 43200000⟩ = true ∧
    isCacheWithinMonths
        (.parsed (calendarMonthsBefore ⟨2025, 5, 15, 43200000⟩ 3 -
          86400000)) 3 ⟨2025, 5, 15, 43200000⟩ = false := by
  refine ⟨fun _ _ => rfl, fun _ _ => rfl, ?_, by decide, by decide, by decide⟩
  intro months now ms
  simp only [isCacheWithinMonths, cutoffMs, calendarMonthsBefore]
  have h1 : now.year + ((now.month : Int) - months) / 12 =
      (now.year * 12 + (now.month : Int) - months) / 12 := by omega
  have h2 : ((now.month : Int) - months) % 12 =
      (now.year * 12 + (now.month : Int) - months) % 12 := by omega
  have h3 : daysFromCivil (now.year + ((now.month : Int) - months) / 12)
      (((now.month : Int) - months) % 12 + 1) now.day =
    daysFromCivil ((now.year * 12 + (now.month : Int) - months) / 12)
      ((now.year * 12 + (now.month : Int) - months) % 12 + 1) now.day := by
    rw [h1, h2]
  simp only [h3]

/-- C7: the numeric distribution block of the score summary.  When the
filtered set of finite `variants_number` values is empty, `min`, `max`,
`mean` and `median` are all null (no NaN, no throw: the embedding is a
total function into options).  On a singleton sorted set `[a]` the median
is `a`; on `[1, 2, 3, 4]` it is `2.5`, the linear-interpolation quantile
at probability one half. -/
theorem computeSummary_variants_quantile :
    (∀ scores : List ScoreRec, variantsOf scores = [] →
      (computeSummary scores).variants = ⟨none, none, none, none⟩) ∧
    (∀ (scores : List ScoreRec) (a : ℚ), variantsOf scores = [a] →
      (computeSummary scores).variants.median = some a) ∧
    (∀ scores : List ScoreRec, variantsOf scores = [1, 2, 3, 4] →
      (computeSummary scores).variants.median = some (5 / 2)) := by
  refine ⟨?_, ?_, ?_⟩
  · intro scores h
    simp [computeSummary, h, quantile]
  · intro scores a h
    simp [computeSummary, h, quantile]
  · intro scores h
    simp only [computeSummary]
    rw [h]
    decide

/-- Witness for C7: the empty collection, a singleton `[7]`, and the
four-element collection `[1, 4, 2, 3]` (which sorts to `[1, 2, 3, 4]`). -/
theorem computeSummary_variants_quantile_instance :
    (computeSummary []).variants = ⟨none, none, none, none⟩ ∧
    (computeSummary [⟨.finite 7, none, none⟩]).variants.median = some 7 ∧
    (computeSummary [⟨.finite 1, none, none⟩, ⟨.finite 4, none, none⟩,
        ⟨.finite 2, none, none⟩,
        ⟨.finite 3, none, none⟩]).variants.median = some (5 / 2) :=
  ⟨computeSummary_variants_quantile.1 [] rfl,
   computeSummary_variants_quantile.2.1 _ 7 (by decide),
   computeSummary_variants_quantile.2.2 _ (by decide)⟩

/-- C8 (amended): for score records, `trait_reported ?? "NR"` coerces
only `null`/`undefined`: a present falsy value such as the empty string
is counted under its literal value.  For trait records, however, the
guard `Array.isArray(c) && c.length` sends a present-but-empty (or
non-array) `trait_categories` to the `"NR"` sentinel as well: only a
nonempty array has its categories (falsy members included) counted
literally. -/
theorem categorical_sentinel (s : String) (r : ScoreRec) (t : TraitRec)
    (cats : List String) :
    (r.trait_reported = some s → scoreTraitTable [r] = [(s, 1)]) ∧
    (r.trait_reported = none → scoreTraitTable [r] = [("NR", 1)]) ∧
    (t.trait_categories = .arr cats → cats ≠ [] → categoriesOf t = cats) ∧
    (t.trait_categories = .arr [] ∨ t.trait_categories = .absent ∨
        t.trait_categories = .notArray → categoriesOf t = ["NR"]) := by
  refine ⟨?_, ?_, ?_, ?_⟩
  · intro h; simp [scoreTraitTable, bump, h]
  · intro h; simp [scoreTraitTable, bump, h]
  · intro h hne; simp [categoriesOf, h, hne]
  · rintro (h | h | h) <;> simp [categoriesOf, h]

/-- Witness for C8's amended theorem: an empty-string trait is counted
under `""`, an absent trait under `"NR"`, a nonempty category array
(containing the falsy `""`) literally, and an empty category array under
`"NR"`. -/
theorem categorical_sentinel_instance :
    scoreTraitTable [⟨.nonfinite, some "", none⟩] = [("", 1)] ∧
    scoreTraitTable [⟨.nonfinite, none, none⟩] = [("NR", 1)] ∧
    categoriesOf ⟨.arr ["", "x"]⟩ = ["", "x"] ∧
    categoriesOf ⟨.arr []⟩ = ["NR"] :=
  ⟨(categorical_sentinel "" ⟨.nonfinite, some "", none⟩ ⟨.absent⟩ []).1 rfl,
   (categorical_sentinel "" ⟨.nonfinite, none, none⟩ ⟨.absent⟩ []).2.1 rfl,
   (categorical_sentinel "" ⟨.nonfinite, none, none⟩ ⟨.arr ["", "x"]⟩
     ["", "x"]).2.2.1 rfl (by decide),
   (categorical_sentinel "" ⟨.nonfinite, none, none⟩ ⟨.arr []⟩ []).2.2.2
     (Or.inl rfl)⟩

/-- C8 counterexample: a trait record whose `trait_categories` field is
present (an empty array — falsy `.length`, not absent) is nevertheless
counted under the `"NR"` sentinel, refuting "only complete absence of
the field maps a record to NR". -/
theorem trait_empty_categories_counterexample :
    (⟨.arr []⟩ : TraitRec).trait_categories ≠ .absent ∧
    (computeTraitSummary [⟨.arr []⟩]).categories = [("NR", 1)] := by
  exact ⟨by decide, by decide⟩

/-- C1: when the fetch fails (any page error), `loadScores` never lets
the error escape: with a cached entry whose `summary` is present — of
any age — it resolves with that entry's summary and its records
(`cached.scores ?? []`) and leaves the store unchanged; with no such
entry it resolves with the empty record list and an absent summary. -/
theorem loadScores_fetch_failure_fallback (store : Option CacheEntry)
    (now : CivilTime) (responses : List (Response ScoreRec)) (e : FetchErr)
    (hf : fetchAllScores 200 responses = .error e) :
    (hasCachedSummary store = true →
      loadScores store now responses =
        (⟨(store.bind CacheEntry.scores).getD [],
          store.bind CacheEntry.summary⟩, store)) ∧
    (hasCachedSummary store = false →
      loadScores store now responses = (⟨[], none⟩, store)) := by
  cases store with
  | none =>
    exact ⟨fun h => by simp [hasCachedSummary] at h,
      fun _ => by simp [loadScores, hf]⟩
  | some c =>
    by_cases hs : c.summary.isSome = true
    · refine ⟨fun _ => ?_, fun h => by simp [hasCachedSummary, hs] at h⟩
      by_cases hfresh : isCacheWithinMonths c.savedAt 3 now = true
      · simp [loadScores, hs, hfresh]
      · simp [loadScores, hs, hfresh, hf]
    · refine ⟨fun h => by simp [hasCachedSummary, hs] at h, fun _ => ?_⟩
      simp [loadScores, hs, hf]

/-- Witness for C1: an HTTP 500 on the first page.  With a stale cached
summary the call resolves with it; with an empty store it resolves with
`{ scores: [], summary: null }`. -/
theorem loadScores_fetch_failure_fallback_instance :
    loadScores (some ⟨.parsed 0, some (computeSummary []), none⟩)
        ⟨2025, 5, 15, 0⟩ [.httpError 500] =
      (⟨[], some (computeSummary [])⟩,
       some ⟨.parsed 0, some (computeSummary []), none⟩) ∧
    loadScores none ⟨2025, 5, 15, 0⟩ [.httpError 500] =
      (⟨[], none⟩, none) := by
  constructor
  · have h := (loadScores_fetch_failure_fallback
      (some ⟨.parsed 0, some (computeSummary []), none⟩) ⟨2025, 5, 15, 0⟩
      [.httpError 500] (.http 500 0) rfl).1 rfl
    simpa using h
  · exact (loadScores_fetch_failure_fallback none ⟨2025, 5, 15, 0⟩
      [.httpError 500] (.http 500 0) rfl).2 rfl

/-- C9: when the fetch fails partway through, the cache entry is exactly
what it was before the call: `saveScoreSummary` runs only after the
whole fetch and the aggregation have completed, so records accumulated
from earlier pages are never persisted. -/
theorem loadScores_error_preserves_cache (store : Option CacheEntry)
    (now : CivilTime) (responses : List (Response ScoreRec)) (e : FetchErr)
    (hf : fetchAllScores 200 responses = .error e) :
    (loadScores store now responses).2 = store := by
  cases store with
  | none => simp [loadScores, hf]
  | some c =>
    by_cases hcond :
        (c.summary.isSome && isCacheWithinMonths c.savedAt 3 now) = true
    · simp [loadScores, hcond]
    · cases hs : c.summary.isSome <;> simp [loadScores, hcond, hf, hs]

/-- Witness for C9: page 1 succeeds (one record, `next` non-null), page 2
is an HTTP 500; the pre-existing cache entry is untouched and the page-1
record is not persisted. -/
theorem loadScores_error_preserves_cache_instance :
    (loadScores (some ⟨.parsed 0, some (computeSummary []), some []⟩)
        ⟨2025, 5, 15, 0⟩
        [.body (.envelope (.arr [⟨.nonfinite, none, none⟩]) (some "n")),
         .httpError 500]).2 =
      some ⟨.parsed 0, some (computeSummary []), some []⟩ :=
  loadScores_error_preserves_cache _ _ _ (.http 500 1) rfl

/-- C10: every `loadScores` result has a record list (always an array in
the embedding's `LoadResult` type) and a summary that is either absent or
a summary object; on a fresh cache hit whose entry stores a summary but
no `scores` field, the call resolves with the cached summary paired with
the empty array (`cached.scores ?? []`). -/
theorem loadScores_result_shape :
    (∀ (store : Option CacheEntry) (now : CivilTime)
        (responses : List (Response ScoreRec)),
      (loadScores store now responses).1.summary = none ∨
        ∃ s, (loadScores store now responses).1.summary = some s) ∧
    (∀ (c : CacheEntry) (now : CivilTime)
        (responses : List (Response ScoreRec)) (s : Summary),
      c.summary = some s → isCacheWithinMonths c.savedAt 3 now = true →
      c.scores = none →
      loadScores (some c) now responses = (⟨[], some s⟩, some c)) := by
  constructor
  · intro store now responses
    cases h : (loadScores store now responses).1.summary with
    | none => exact Or.inl rfl
    | some s => exact Or.inr ⟨s, rfl⟩
  · intro c now responses s hs hfresh hsc
    simp [loadScores, hs, hfresh, hsc]

/-- Witness for C10: a fresh cache entry (saved at the current instant)
holding a summary but no `scores` field resolves to that summary with an
empty record list. -/
theorem loadScores_result_shape_instance :
    loadScores (some ⟨.parsed (epochMs ⟨2025, 5, 15, 43200000⟩),
        some (computeSummary []), none⟩) ⟨2025, 5, 15, 43200000⟩ [] =
      (⟨[], some (computeSummary [])⟩,
       some ⟨.parsed (epochMs ⟨2025, 5, 15, 43200000⟩),
         some (computeSummary []), none⟩) :=
  loadScores_result_shape.2 _ ⟨2025, 5, 15, 43200000⟩ [] (computeSummary [])
    rfl (by decide) rfl

end

end PgsCatalog
